import Mathlib

/-!
Shallow embedding of the Containarium per-host container network traffic
observer (package `internal/traffic`), covering:

* the conntrack event model (`conntrack.go`),
* the attribution and registry logic of the Collector (`collector.go`),
* the container directory cache lookup (`cache.go`),
* the FlowSource event channel (`conntrack_linux.go`),
* the PostgreSQL-backed flow store (`store.go`): schema, `SaveConnection`,
  `QueryConnections`, `GetAggregates`, `parseInterval`, `reAggregate`.

Machine integers of the source (`int64`, `int32`, Go `int`) are modelled as
`Int`/`Nat`; `time.Time` values are modelled as `Int` unix seconds and
`time.Duration` values as `Int` seconds (all comparisons and truncations of
the source happen at or above second resolution).  Go maps are modelled as
association lists with key-unique update operations; where the source
iterates over a Go map (whose iteration order is unspecified and
deliberately randomised by the runtime), the iteration order is an explicit
parameter ranging over the permutations of the map's key set.
-/

namespace Containarium

/-- Model of `ConntrackEventType` from `conntrack.go`: NEW / UPDATE / DESTROY. -/
inductive ConntrackEventType where
  | new
  | update
  | destroy
deriving DecidableEq, Repr

/-- Model of `ConntrackEvent` from `conntrack.go`.  `timestamp` is `time.Time` as unix
seconds; ports are `uint16` values (their numeric value only is relevant). -/
structure ConntrackEvent where
  id : String
  type : ConntrackEventType
  protocol : String
  srcIP : String
  srcPort : Nat
  dstIP : String
  dstPort : Nat
  state : String
  bytesOrig : Int
  bytesReply : Int
  packetsOrig : Int
  packetsReply : Int
  timeout : Int
  timestamp : Int
deriving DecidableEq, Repr

/-- The `pb.Protocol` wire enum. -/
inductive Protocol where
  | unspecified
  | tcp
  | udp
  | icmp
deriving DecidableEq, Repr

/-- The `pb.TrafficDirection` wire enum. -/
inductive TrafficDirection where
  | unspecified
  | egress
  | ingress
deriving DecidableEq, Repr

/-- The `pb.ConnectionState` wire enum (the states produced by
`stateStringToEnum` in `collector.go`). -/
inductive ConnectionState where
  | unspecified
  | synSent
  | synRecv
  | established
  | finWait
  | closeWait
  | timeWait
  | closed
deriving DecidableEq, Repr

/-- Model of `protoStringToEnum` from `collector.go`. -/
def protoStringToEnum (proto : String) : Protocol :=
  if proto = "tcp" then Protocol.tcp
  else if proto = "udp" then Protocol.udp
  else if proto = "icmp" then Protocol.icmp
  else Protocol.unspecified

/-- Model of `stateStringToEnum` from `collector.go`.  Note that the source maps both
`LAST_ACK` and `TIME_WAIT` to the TIME_WAIT enum value. -/
def stateStringToEnum (state : String) : ConnectionState :=
  if state = "SYN_SENT" then ConnectionState.synSent
  else if state = "SYN_RECV" then ConnectionState.synRecv
  else if state = "ESTABLISHED" then ConnectionState.established
  else if state = "FIN_WAIT" then ConnectionState.finWait
  else if state = "CLOSE_WAIT" then ConnectionState.closeWait
  else if state = "LAST_ACK" then ConnectionState.timeWait
  else if state = "TIME_WAIT" then ConnectionState.timeWait
  else if state = "CLOSE" then ConnectionState.closed
  else ConnectionState.unspecified

/-- Model of `pb.Connection` as populated by `convertToProto` in `collector.go`.
`firstSeen` / `lastSeen` are the proto timestamp pointers (`none` = nil);
`convertToProto` always sets both. -/
structure Connection where
  id : String
  containerName : String
  containerIp : String
  protocol : Protocol
  sourceIp : String
  sourcePort : Nat
  destIp : String
  destPort : Nat
  state : ConnectionState
  direction : TrafficDirection
  firstSeen : Option Int
  lastSeen : Option Int
  timeoutSeconds : Int
  bytesSent : Int
  bytesReceived : Int
  packetsSent : Int
  packetsReceived : Int
deriving DecidableEq, Repr

/-- The `ipToName` map of the `ContainerCache` (`cache.go`), as an
association list from IP to container name. -/
def Directory : Type := List (String × String)

/-- Model of `ContainerCache.LookupIP`: a Go map read returning the zero value `""`
when the IP is absent. -/
def lookupIP (cache : Directory) (ip : String) : String :=
  match List.lookup ip cache with
  | some name => name
  | none => ""

/-- The attribution step at the top of `processConntrackEvent`
(`collector.go` lines 141-160): source IP first (egress), then destination
IP (ingress); `none` when neither endpoint is a known container (the event
is skipped). -/
def attributeEvent (cache : Directory) (event : ConntrackEvent) :
    Option (String × String × TrafficDirection) :=
  if lookupIP cache event.srcIP ≠ "" then
    some (lookupIP cache event.srcIP, event.srcIP, TrafficDirection.egress)
  else if lookupIP cache event.dstIP ≠ "" then
    some (lookupIP cache event.dstIP, event.dstIP, TrafficDirection.ingress)
  else
    none

/-- Model of `convertToProto` from `collector.go`: builds a `pb.Connection` from a
conntrack event; both `FirstSeen` and `LastSeen` are set to the event's
timestamp; byte/packet counters are mapped by direction (EGRESS keeps the
original direction, everything else swaps). -/
def convertToProto (event : ConntrackEvent) (containerName containerIP : String)
    (direction : TrafficDirection) : Connection :=
  let base : Connection :=
    { id := event.id
      containerName := containerName
      containerIp := containerIP
      protocol := protoStringToEnum event.protocol
      sourceIp := event.srcIP
      sourcePort := event.srcPort
      destIp := event.dstIP
      destPort := event.dstPort
      state := stateStringToEnum event.state
      direction := direction
      firstSeen := some event.timestamp
      lastSeen := some event.timestamp
      timeoutSeconds := event.timeout
      bytesSent := 0
      bytesReceived := 0
      packetsSent := 0
      packetsReceived := 0 }
  if direction = TrafficDirection.egress then
    { base with
        bytesSent := event.bytesOrig
        bytesReceived := event.bytesReply
        packetsSent := event.packetsOrig
        packetsReceived := event.packetsReply }
  else
    { base with
        bytesSent := event.bytesReply
        bytesReceived := event.bytesOrig
        packetsSent := event.packetsReply
        packetsReceived := event.packetsOrig }

/-- The Collector's `connections` field, `map[string]*pb.Connection`, as a
key-unique association list. -/
def Registry : Type := List (String × Connection)

/-- Go map `delete(m, id)`. -/
def regRemove (reg : Registry) (id : String) : Registry :=
  List.filter (fun p => p.1 ≠ id) reg

/-- Go map assignment `m[id] = conn` (replace or add). -/
def regInsert (reg : Registry) (id : String) (conn : Connection) : Registry :=
  (id, conn) :: regRemove reg id

/-- Registry lookup `m[id]`. -/
def regLookup (reg : Registry) (id : String) : Option Connection :=
  List.lookup id reg

/-- Model of `processConntrackEvent` from `collector.go`: attribute the event; skip it
when neither endpoint is a container; on DESTROY delete the registry entry,
otherwise overwrite it with a freshly converted connection. -/
def processConntrackEvent (cache : Directory) (reg : Registry)
    (event : ConntrackEvent) : Registry :=
  match attributeEvent cache event with
  | none => reg
  | some (name, ip, dir) =>
    if event.type = ConntrackEventType.destroy then
      regRemove reg event.id
    else
      regInsert reg event.id (convertToProto event name ip dir)

/-- The loop body of `takeSnapshot` from `collector.go`: insert the event's
converted connection when its attribution succeeds, skip it otherwise (the
event type is not inspected here). -/
def snapStep (cache : Directory) (reg : Registry) (event : ConntrackEvent) :
    Registry :=
  match attributeEvent cache event with
  | none => reg
  | some (name, ip, dir) => regInsert reg event.id (convertToProto event name ip dir)

/-- The body of `takeSnapshot` from `collector.go`: clear the registry and
rebuild it from the snapshot's events. -/
def takeSnapshot (cache : Directory) (events : List ConntrackEvent) : Registry :=
  List.foldl (snapStep cache) [] events

/-- One observation consumed by the Collector: either a single event from the
FlowSource channel (event loop) or a full conntrack snapshot (snapshot loop's
`takeSnapshot`, which rebuilds the registry from scratch). -/
inductive Observation where
  | ev (e : ConntrackEvent)
  | snap (es : List ConntrackEvent)
deriving DecidableEq, Repr

/-- One Collector step on the registry: `processConntrackEvent` for a channel
event, `takeSnapshot` for a snapshot (the snapshot discards the previous
registry). -/
def obsStep (cache : Directory) (reg : Registry) : Observation → Registry
  | Observation.ev e => processConntrackEvent cache reg e
  | Observation.snap es => takeSnapshot cache es

/-- Registry contents after the Collector has consumed a sequence of
observations, starting from the empty registry of `NewCollector`. -/
def processObservations (cache : Directory) (obs : List Observation) : Registry :=
  List.foldl (obsStep cache) [] obs

/-- The raw events carried by an observation (a snapshot contributes each of
its entries, in order). -/
def eventsOf : Observation → List ConntrackEvent
  | Observation.ev e => [e]
  | Observation.snap es => es

/-- All events observed, in observation order. -/
def observedEvents (obs : List Observation) : List ConntrackEvent :=
  List.flatten (List.map eventsOf obs)

/-- The type of the last observed event carrying the given flow id, with
snapshot entries counted as observations. -/
def lastEventTypeFor (obs : List Observation) (id : String) :
    Option ConntrackEventType :=
  Option.map (fun e => e.type)
    (List.getLast? (List.filter (fun e => e.id == id) (observedEvents obs)))

/-- Whether an event is attributed to a container (not skipped). -/
def attributed (cache : Directory) (e : ConntrackEvent) : Bool :=
  (attributeEvent cache e).isSome

/-- Whether an observation decides the registry membership of `id`: an event
does so exactly when it carries `id` and its attribution succeeds (otherwise
`processConntrackEvent` leaves the registry untouched); a snapshot decides
every id, because `takeSnapshot` rebuilds the whole registry. -/
def decidesId (cache : Directory) (id : String) : Observation → Bool
  | Observation.ev e => e.id == id && attributed cache e
  | Observation.snap _ => true

/-- Whether a deciding observation leaves `id` present: an event does iff it
is not a DESTROY; a snapshot does iff it contains an attributed entry with
that id. -/
def obsKeeps (cache : Directory) (id : String) : Observation → Bool
  | Observation.ev e => !(e.type == ConntrackEventType.destroy)
  | Observation.snap es => List.any es (fun e => e.id == id && attributed cache e)

/-- Walks the observations from most recent to oldest and returns the verdict
of the first one that decides `id`, falling back to `dflt` when none does. -/
def aliveAfterRev (cache : Directory) (id : String) :
    List Observation → Bool → Bool
  | [], dflt => dflt
  | o :: rest, dflt =>
    if decidesId cache id o then obsKeeps cache id o
    else aliveAfterRev cache id rest dflt

/-- Reference characterisation of registry membership: starting from an empty
registry, `id` is alive after `obs` iff the most recent observation deciding
`id` keeps it. -/
def aliveAfter (cache : Directory) (obs : List Observation) (id : String) : Bool :=
  aliveAfterRev cache id (List.reverse obs) false

/-- Capacity of the FlowSource event channel:
`make(chan *ConntrackEvent, 1000)` in `NewConntrackMonitor`
(`conntrack_linux.go`). -/
def eventChannelCapacity : Nat := 1000

/-- The observable state of the monitor's event channel together with the
count of "channel full, dropping event" warnings logged by `processEvent`. -/
structure MonitorChannelState where
  queue : List ConntrackEvent
  droppedWarnings : Nat
deriving DecidableEq, Repr

/-- The non-blocking send at the end of `processEvent`
(`conntrack_linux.go`): `select` with a `default` branch enqueues the event
when the buffered channel has room and otherwise drops it, logging a
warning. -/
def sendEvent (st : MonitorChannelState) (e : ConntrackEvent) :
    MonitorChannelState :=
  if st.queue.length < eventChannelCapacity then
    { st with queue := st.queue ++ [e] }
  else
    { st with droppedWarnings := st.droppedWarnings + 1 }

/-- Model of `pb.ConnectionSummary` as populated by `GetConnectionSummary`
(`collector.go`).  `topDestinations` lists `(dest_ip, connection_count,
bytes_total)`; the source materialises it by ranging over a Go map, so only
its multiset of entries is determined. -/
structure ConnectionSummary where
  containerName : String
  activeConnections : Nat
  tcpConnections : Nat
  udpConnections : Nat
  totalBytesSent : Int
  totalBytesReceived : Int
  topDestinations : List (String × Nat × Int)
deriving DecidableEq, Repr

/-- Go map update `m[k] = f(m[k])` on a `map[string]β` modelled as an
association list in first-insertion order, with `dflt` the zero value. -/
def assocBump (m : List (String × α)) (k : String) (dflt : α) (f : α → α) :
    List (String × α) :=
  match List.lookup k m with
  | some v => List.map (fun kv => if kv.1 = k then (k, f v) else kv) m
  | none => m ++ [(k, f dflt)]

/-- The per-connection accumulator of the `GetConnectionSummary` loop. -/
structure SummaryAcc where
  tcpConnections : Nat
  udpConnections : Nat
  totalBytesSent : Int
  totalBytesReceived : Int
  destCounts : List (String × Nat)
  destBytes : List (String × Int)
deriving DecidableEq, Repr

/-- The body of the `for _, conn := range connections` loop of
`GetConnectionSummary`. -/
def summaryStep (acc : SummaryAcc) (conn : Connection) : SummaryAcc :=
  let acc1 :=
    if conn.protocol = Protocol.tcp then
      { acc with tcpConnections := acc.tcpConnections + 1 }
    else if conn.protocol = Protocol.udp then
      { acc with udpConnections := acc.udpConnections + 1 }
    else acc
  { acc1 with
      totalBytesSent := acc1.totalBytesSent + conn.bytesSent
      totalBytesReceived := acc1.totalBytesReceived + conn.bytesReceived
      destCounts := assocBump acc1.destCounts conn.destIp 0 (fun n => n + 1)
      destBytes :=
        assocBump acc1.destBytes conn.destIp 0
          (fun b => b + conn.bytesSent + conn.bytesReceived) }

/-- Model of `GetConnectionSummary` (`collector.go`) applied to the list of active
connections returned by `GetConnections`: `ActiveConnections` is the list
length, the loop counts tcp/udp connections and sums logical byte counters,
and `TopDestinations` is the grouped per-destination result. -/
def summarize (containerName : String) (connections : List Connection) :
    ConnectionSummary :=
  let acc :=
    List.foldl summaryStep
      { tcpConnections := 0
        udpConnections := 0
        totalBytesSent := 0
        totalBytesReceived := 0
        destCounts := []
        destBytes := [] }
      connections
  { containerName := containerName
    activeConnections := connections.length
    tcpConnections := acc.tcpConnections
    udpConnections := acc.udpConnections
    totalBytesSent := acc.totalBytesSent
    totalBytesReceived := acc.totalBytesReceived
    topDestinations :=
      List.map
        (fun kv =>
          (kv.1, kv.2,
            match List.lookup kv.1 acc.destBytes with
            | some b => b
            | none => 0))
        acc.destCounts }

/-- A row of the `traffic_connections` table created by `initSchema`
(`store.go`).  `rowId` is the `BIGSERIAL PRIMARY KEY`.  The DDL declares five
plain (non-unique) `CREATE INDEX` statements — including
`idx_traffic_conntrack_id` on `conntrack_id` — and no `UNIQUE` constraint on
this table, so the primary key is its only unique constraint.  Protocol and
direction `SMALLINT` columns hold the enums' wire values; we keep the enums
themselves.  Timestamps are unix seconds. -/
structure PersistedConnection where
  rowId : Nat
  containerName : String
  protocol : Protocol
  sourceIp : String
  sourcePort : Nat
  destIp : String
  destPort : Int
  direction : TrafficDirection
  bytesSent : Int
  bytesReceived : Int
  packetsSent : Int
  packetsReceived : Int
  startedAt : Int
  endedAt : Option Int
  durationSeconds : Option Int
  conntrackId : Option String
  createdAt : Int
deriving DecidableEq, Repr

/-- The `traffic_connections` table: its rows plus the `BIGSERIAL`
sequence. -/
structure TrafficConnectionsTable where
  nextId : Nat
  rows : List PersistedConnection
deriving DecidableEq, Repr

/-- The freshly initialised (empty) table. -/
def emptyTable : TrafficConnectionsTable :=
  { nextId := 1, rows := [] }

/-- PostgreSQL `ON CONFLICT DO NOTHING` without a conflict target skips the
insert exactly when the candidate row violates some unique constraint of the
table; for `traffic_connections` the only unique constraint is the
`BIGSERIAL` primary key. -/
def rowConflicts (r s : PersistedConnection) : Bool :=
  r.rowId = s.rowId

/-- Model of `SaveConnection` (`store.go`): computes `started_at` from `FirstSeen`
(a nil proto timestamp reads as the epoch), `ended_at`/`duration_seconds`
from `LastSeen` when set, and runs the
`INSERT ... ON CONFLICT DO NOTHING`. `now` is the row's `created_at`
(`DEFAULT NOW()`). -/
def saveConnection (tbl : TrafficConnectionsTable) (now : Int)
    (conn : Connection) : TrafficConnectionsTable :=
  let startedAt : Int :=
    match conn.firstSeen with
    | some t => t
    | none => 0
  let row : PersistedConnection :=
    { rowId := tbl.nextId
      containerName := conn.containerName
      protocol := conn.protocol
      sourceIp := conn.sourceIp
      sourcePort := conn.sourcePort
      destIp := conn.destIp
      destPort := (conn.destPort : Int)
      direction := conn.direction
      bytesSent := conn.bytesSent
      bytesReceived := conn.bytesReceived
      packetsSent := conn.packetsSent
      packetsReceived := conn.packetsReceived
      startedAt := startedAt
      endedAt := conn.lastSeen
      durationSeconds := Option.map (fun t => t - startedAt) conn.lastSeen
      conntrackId := some conn.id
      createdAt := now }
  if List.any tbl.rows (fun s => rowConflicts row s) then tbl
  else { nextId := tbl.nextId + 1, rows := tbl.rows ++ [row] }

/-- Model of `QueryParams` from `store.go`.  `offset` is passed straight to SQL
`OFFSET`; the callers only pass non-negative offsets. -/
structure QueryParams where
  containerName : String
  startTime : Int
  endTime : Int
  destIP : String
  destPort : Int
  offset : Nat
  limit : Int
deriving DecidableEq, Repr

/-- The WHERE clause built by `QueryConnections`: required container and
started_at range filters, plus the dest_ip filter when `DestIP` is non-empty
and the dest_port filter when `DestPort > 0`. -/
def rowMatches (params : QueryParams) (r : PersistedConnection) : Bool :=
  r.containerName = params.containerName
    && params.startTime ≤ r.startedAt && r.startedAt ≤ params.endTime
    && (params.destIP = "" || r.destIp = params.destIP)
    && (params.destPort ≤ 0 || r.destPort = params.destPort)

/-- The limit clamping of `QueryConnections`: non-positive limits become 100
and limits above 1000 become 1000. -/
def clampLimit (l : Int) : Int :=
  if l ≤ 0 then 100
  else if l > 1000 then 1000
  else l

/-- The `ORDER BY started_at DESC` order: row `a` may precede row `b`. -/
def rowDescOrder (a b : PersistedConnection) : Prop :=
  b.startedAt ≤ a.startedAt

instance : DecidableRel rowDescOrder := fun a b => Int.decLe b.startedAt a.startedAt

instance : IsTotal PersistedConnection rowDescOrder :=
  ⟨fun a b => (le_total b.startedAt a.startedAt).imp (fun h => h) (fun h => h)⟩

instance : IsTrans PersistedConnection rowDescOrder :=
  ⟨fun _ _ _ h1 h2 => le_trans h2 h1⟩

/-- Model of `pb.HistoricalConnection` as populated by the scan loop of
`QueryConnections`. -/
structure HistoricalConnection where
  id : Nat
  containerName : String
  protocol : Protocol
  sourceIp : String
  sourcePort : Nat
  destIp : String
  destPort : Int
  direction : TrafficDirection
  bytesSent : Int
  bytesReceived : Int
  startedAt : Int
  endedAt : Option Int
  durationSeconds : Int
deriving DecidableEq, Repr

/-- The per-row conversion of the `rows.Next()` scan loop in
`QueryConnections` (`duration_seconds` stays the proto zero value when the
column is NULL). -/
def toHistorical (r : PersistedConnection) : HistoricalConnection :=
  { id := r.rowId
    containerName := r.containerName
    protocol := r.protocol
    sourceIp := r.sourceIp
    sourcePort := r.sourcePort
    destIp := r.destIp
    destPort := r.destPort
    direction := r.direction
    bytesSent := r.bytesSent
    bytesReceived := r.bytesReceived
    startedAt := r.startedAt
    endedAt := r.endedAt
    durationSeconds :=
      match r.durationSeconds with
      | some d => d
      | none => 0 }

/-- Model of `QueryConnections` (`store.go`): counts the rows matching the filters,
clamps the limit, and returns the matching rows ordered by `started_at`
descending, after `OFFSET`/`LIMIT`, converted to `pb.HistoricalConnection`.
(SQL leaves the relative order of rows with equal `started_at` open; the
embedding picks the stable insertion-sort order.) -/
def queryConnections (tbl : TrafficConnectionsTable) (params : QueryParams) :
    List HistoricalConnection × Nat :=
  let matching := List.filter (rowMatches params) tbl.rows
  let totalCount := matching.length
  let limit := clampLimit params.limit
  let ordered := List.insertionSort rowDescOrder matching
  (List.map toHistorical (List.take limit.toNat (List.drop params.offset ordered)),
    totalCount)

/-- Model of `AggregateParams` from `store.go`. -/
structure AggregateParams where
  containerName : String
  startTime : Int
  endTime : Int
  interval : String
  groupByDestIP : Bool
  groupByDestPort : Bool
deriving DecidableEq, Repr

/-- Model of `pb.TrafficAggregate` as populated by `GetAggregates`. -/
structure TrafficAggregate where
  timestamp : Int
  destIp : String
  destPort : Int
  bytesSent : Int
  bytesReceived : Int
  connectionCount : Nat
deriving DecidableEq, Repr

/-- Model of `parseInterval` (`store.go`): durations as seconds; the empty string
defaults to one hour, unknown strings are errors. -/
def parseInterval (interval : String) : Except String Int :=
  if interval = "" then Except.ok 3600
  else if interval = "1m" then Except.ok 60
  else if interval = "5m" then Except.ok 300
  else if interval = "15m" then Except.ok 900
  else if interval = "30m" then Except.ok 1800
  else if interval = "1h" then Except.ok 3600
  else if interval = "6h" then Except.ok 21600
  else if interval = "12h" then Except.ok 43200
  else if interval = "1d" then Except.ok 86400
  else Except.error ("unsupported interval: " ++ interval)

/-- The SQL `date_trunc('hour', t)`: floor to the enclosing hour. -/
def hourTrunc (t : Int) : Int :=
  3600 * Int.fdiv t 3600

/-- The GROUP BY key of the hourly aggregation query: the hour bucket, plus
`dest_ip` / `dest_port` when the corresponding grouping flag adds the column
(a constant component otherwise, matching the proto zero values of the
un-grouped output fields). -/
def aggKey (params : AggregateParams) (r : PersistedConnection) :
    Int × String × Int :=
  (hourTrunc r.startedAt,
    if params.groupByDestIP then r.destIp else "",
    if params.groupByDestPort then r.destPort else 0)

/-- The WHERE clause of the aggregation query. -/
def aggMatches (params : AggregateParams) (r : PersistedConnection) : Bool :=
  r.containerName = params.containerName
    && params.startTime ≤ r.startedAt && r.startedAt ≤ params.endTime

/-- First-occurrence deduplication of a key list (the distinct GROUP BY
keys). -/
def dedupKeys {α : Type} [DecidableEq α] (l : List α) : List α :=
  List.foldl (fun acc k => if k ∈ acc then acc else acc ++ [k]) [] l

/-- Descending order on aggregate bucket start times (`ORDER BY bucket
DESC`). -/
def aggDescOrder (a b : TrafficAggregate) : Prop :=
  b.timestamp ≤ a.timestamp

instance : DecidableRel aggDescOrder := fun a b => Int.decLe b.timestamp a.timestamp

instance : IsTotal TrafficAggregate aggDescOrder :=
  ⟨fun a b => (le_total b.timestamp a.timestamp).imp (fun h => h) (fun h => h)⟩

instance : IsTrans TrafficAggregate aggDescOrder :=
  ⟨fun _ _ _ h1 h2 => le_trans h2 h1⟩

/-- The SQL hourly aggregation of `GetAggregates` (`store.go`): filter by
container and time range, group by the hour bucket (and the requested dest
columns), sum byte counters, count rows, and order the buckets by bucket
start descending.  (SQL leaves the relative order of distinct dest groups
within one bucket open; the embedding picks the stable insertion-sort
order.) -/
def hourlyAggregates (tbl : TrafficConnectionsTable) (params : AggregateParams) :
    List TrafficAggregate :=
  let rs := List.filter (aggMatches params) tbl.rows
  let keys := dedupKeys (List.map (aggKey params) rs)
  let mk := fun (k : Int × String × Int) =>
    let grp := List.filter (fun r => aggKey params r = k) rs
    { timestamp := k.1
      destIp := k.2.1
      destPort := k.2.2
      bytesSent := (List.map (fun r => r.bytesSent) grp).sum
      bytesReceived := (List.map (fun r => r.bytesReceived) grp).sum
      connectionCount := grp.length : TrafficAggregate }
  List.insertionSort aggDescOrder (List.map mk keys)

/-- Model of `time.Time.Truncate` for a positive interval: round down to a multiple of
the interval since the zero time. -/
def truncTo (interval t : Int) : Int :=
  interval * Int.fdiv t interval

/-- One iteration of the grouping loop of `reAggregate` (`store.go`) over the
`buckets` Go map, modelled as an association list keyed by the truncated
bucket time (`bucketTime.Unix()`): an existing bucket accumulates the
counters, a missing one is created carrying the first contributor's dest
fields. -/
def reAggStep (interval : Int) (buckets : List (Int × TrafficAggregate))
    (agg : TrafficAggregate) : List (Int × TrafficAggregate) :=
  let bucketTime := truncTo interval agg.timestamp
  match List.lookup bucketTime buckets with
  | some existing =>
    List.map
      (fun kv =>
        if kv.1 = bucketTime then
          (bucketTime,
            { existing with
                bytesSent := existing.bytesSent + agg.bytesSent
                bytesReceived := existing.bytesReceived + agg.bytesReceived
                connectionCount := existing.connectionCount + agg.connectionCount })
        else kv)
      buckets
  | none =>
    buckets ++
      [(bucketTime,
        { timestamp := bucketTime
          destIp := agg.destIp
          destPort := agg.destPort
          bytesSent := agg.bytesSent
          bytesReceived := agg.bytesReceived
          connectionCount := agg.connectionCount })]

/-- The contents of the `buckets` map after the grouping loop of
`reAggregate`. -/
def reAggGroups (aggregates : List TrafficAggregate) (interval : Int) :
    List (Int × TrafficAggregate) :=
  List.foldl (reAggStep interval) [] aggregates

/-- Model of `reAggregate` (`store.go`): group the hourly aggregates into the larger
interval, then collect the map's values with `for _, agg := range buckets`.
Go's map range order is unspecified (deliberately randomised), so the
collection order is an explicit parameter `order`; an execution of the Go
code corresponds to any `order` that is a permutation of the map's key
set. -/
def reAggregate (aggregates : List TrafficAggregate) (interval : Int)
    (order : List Int) : List TrafficAggregate :=
  if aggregates.length = 0 then aggregates
  else
    List.filterMap (fun k => List.lookup k (reAggGroups aggregates interval)) order

/-- Whether `order` is a possible Go map iteration order for the `buckets` map built
by `reAggregate`: a permutation of its keys. -/
def ValidReAggOrder (aggregates : List TrafficAggregate) (interval : Int)
    (order : List Int) : Prop :=
  List.Perm order (List.map Prod.fst (reAggGroups aggregates interval))

instance (aggregates : List TrafficAggregate) (interval : Int)
    (order : List Int) : Decidable (ValidReAggOrder aggregates interval order) :=
  inferInstanceAs
    (Decidable
      (List.Perm order (List.map Prod.fst (reAggGroups aggregates interval))))

/-- Model of `GetAggregates` (`store.go`): parse the interval (errors propagate),
run the hourly aggregation query, and re-aggregate in memory only when the
requested interval is strictly larger than one hour. -/
def getAggregates (tbl : TrafficConnectionsTable) (params : AggregateParams)
    (order : List Int) : Except String (List TrafficAggregate) :=
  match parseInterval params.interval with
  | Except.error e => Except.error ("invalid interval: " ++ e)
  | Except.ok intervalDuration =>
    let aggregates := hourlyAggregates tbl params
    if intervalDuration > 3600 then
      Except.ok (reAggregate aggregates intervalDuration order)
    else
      Except.ok aggregates

/-! ## Concrete inputs used by witnesses and counterexamples -/

/-- A directory with two containers, `a` at 10.0.0.5 and `b` at 10.0.0.6. -/
def cacheAB : Directory := [("10.0.0.5", "a"), ("10.0.0.6", "b")]

/-- An intra-container flow: both endpoints are in `cacheAB`. -/
def eIntra : ConntrackEvent :=
  { id := "6"
    type := ConntrackEventType.new
    protocol := "tcp"
    srcIP := "10.0.0.5"
    srcPort := 40000
    dstIP := "10.0.0.6"
    dstPort := 22
    state := "ESTABLISHED"
    bytesOrig := 800
    bytesReply := 200
    packetsOrig := 5
    packetsReply := 4
    timeout := 120
    timestamp := 50 }

/-- An empty monitor channel. -/
def st0 : MonitorChannelState := { queue := [], droppedWarnings := 0 }

/-! ## Theorems -/

/-- C2: for every RawFlow whose source and destination IPs both resolve to a
container name in the directory, attribution produces exactly one
AttributedFlow, with direction EGRESS, the container owning the source IP,
and `container_ip` equal to the source IP. -/
theorem both_endpoints_attributed_as_egress (cache : Directory)
    (e : ConntrackEvent) (hs : lookupIP cache e.srcIP ≠ "")
    (hd : lookupIP cache e.dstIP ≠ "") :
    attributeEvent cache e =
      some (lookupIP cache e.srcIP, e.srcIP, TrafficDirection.egress) ∧
    (convertToProto e (lookupIP cache e.srcIP) e.srcIP
        TrafficDirection.egress).direction = TrafficDirection.egress ∧
    (convertToProto e (lookupIP cache e.srcIP) e.srcIP
        TrafficDirection.egress).containerName = lookupIP cache e.srcIP ∧
    (convertToProto e (lookupIP cache e.srcIP) e.srcIP
        TrafficDirection.egress).containerIp = e.srcIP := by
  have hd2 := hd
  clear hd2
  refine ⟨?_, ?_, ?_, ?_⟩
  · simp [attributeEvent, hs]
  · simp [convertToProto]
  · simp [convertToProto]
  · simp [convertToProto]

/-- Witness for C2 at the intra-container flow `eIntra` against `cacheAB`. -/
theorem both_endpoints_attributed_as_egress_witness :
    lookupIP cacheAB eIntra.srcIP ≠ "" ∧ lookupIP cacheAB eIntra.dstIP ≠ "" ∧
    (attributeEvent cacheAB eIntra =
        some (lookupIP cacheAB eIntra.srcIP, eIntra.srcIP,
          TrafficDirection.egress) ∧
      (convertToProto eIntra (lookupIP cacheAB eIntra.srcIP) eIntra.srcIP
          TrafficDirection.egress).direction = TrafficDirection.egress ∧
      (convertToProto eIntra (lookupIP cacheAB eIntra.srcIP) eIntra.srcIP
          TrafficDirection.egress).containerName = lookupIP cacheAB eIntra.srcIP ∧
      (convertToProto eIntra (lookupIP cacheAB eIntra.srcIP) eIntra.srcIP
          TrafficDirection.egress).containerIp = eIntra.srcIP) :=
  ⟨by decide, by decide,
    both_endpoints_attributed_as_egress cacheAB eIntra (by decide) (by decide)⟩

/-- C4: the counter mapping of `convertToProto` is directional: EGRESS takes
`sent` from the original direction and `received` from the reply direction,
INGRESS the other way round. -/
theorem directional_counter_mapping (e : ConntrackEvent) (name ip : String)
    (d : TrafficDirection) :
    (d = TrafficDirection.egress →
      (convertToProto e name ip d).bytesSent = e.bytesOrig ∧
      (convertToProto e name ip d).bytesReceived = e.bytesReply ∧
      (convertToProto e name ip d).packetsSent = e.packetsOrig ∧
      (convertToProto e name ip d).packetsReceived = e.packetsReply) ∧
    (d = TrafficDirection.ingress →
      (convertToProto e name ip d).bytesSent = e.bytesReply ∧
      (convertToProto e name ip d).bytesReceived = e.bytesOrig ∧
      (convertToProto e name ip d).packetsSent = e.packetsReply ∧
      (convertToProto e name ip d).packetsReceived = e.packetsOrig) := by
  constructor <;> rintro rfl <;> simp [convertToProto]

/-- Witness for C4 at a concrete egress conversion. -/
theorem directional_counter_mapping_witness :
    (convertToProto eIntra "a" "10.0.0.5" TrafficDirection.egress).bytesSent
        = eIntra.bytesOrig ∧
    (convertToProto eIntra "a" "10.0.0.5" TrafficDirection.egress).bytesReceived
        = eIntra.bytesReply ∧
    (convertToProto eIntra "a" "10.0.0.5" TrafficDirection.egress).packetsSent
        = eIntra.packetsOrig ∧
    (convertToProto eIntra "a" "10.0.0.5"
        TrafficDirection.egress).packetsReceived = eIntra.packetsReply :=
  (directional_counter_mapping eIntra "a" "10.0.0.5" TrafficDirection.egress).1
    rfl

/-- C9 counterexample: the FlowSource event channel is created with capacity
1,000, not 1,024. -/
theorem event_channel_capacity_not_1024 : eventChannelCapacity ≠ 1024 := by
  decide

/-- C9 amended: the event channel is bounded with capacity 1,000; a send on a
full channel drops the event (logging a warning) and never grows the queue
past the capacity, while a send on a non-full channel enqueues it. -/
theorem event_channel_drop_on_full (st : MonitorChannelState)
    (e : ConntrackEvent) (h : st.queue.length ≤ eventChannelCapacity) :
    eventChannelCapacity = 1000 ∧
    (sendEvent st e).queue.length ≤ eventChannelCapacity ∧
    (st.queue.length = eventChannelCapacity →
      (sendEvent st e).queue = st.queue ∧
      (sendEvent st e).droppedWarnings = st.droppedWarnings + 1) ∧
    (st.queue.length < eventChannelCapacity →
      (sendEvent st e).queue = st.queue ++ [e] ∧
      (sendEvent st e).droppedWarnings = st.droppedWarnings) := by
  by_cases hlt : st.queue.length < eventChannelCapacity
  · refine ⟨rfl, ?_, ?_, ?_⟩
    · simp only [sendEvent, if_pos hlt, List.length_append, List.length_cons,
        List.length_nil]
      revert hlt
      unfold eventChannelCapacity
      omega
    · intro heq
      exact absurd heq (Nat.ne_of_lt hlt)
    · intro _
      simp [sendEvent, hlt]
  · refine ⟨rfl, ?_, ?_, ?_⟩
    · simpa [sendEvent, hlt] using h
    · intro _
      simp [sendEvent, hlt]
    · intro hc
      exact absurd hc hlt

/-- Witness for C9 (amended) at the empty channel. -/
theorem event_channel_drop_on_full_witness :
    st0.queue.length ≤ eventChannelCapacity ∧
    (eventChannelCapacity = 1000 ∧
      (sendEvent st0 eIntra).queue.length ≤ eventChannelCapacity ∧
      (st0.queue.length = eventChannelCapacity →
        (sendEvent st0 eIntra).queue = st0.queue ∧
        (sendEvent st0 eIntra).droppedWarnings = st0.droppedWarnings + 1) ∧
      (st0.queue.length < eventChannelCapacity →
        (sendEvent st0 eIntra).queue = st0.queue ++ [eIntra] ∧
        (sendEvent st0 eIntra).droppedWarnings = st0.droppedWarnings)) :=
  ⟨by decide, event_channel_drop_on_full st0 eIntra (by decide)⟩

/-- A DESTROY event for flow id "1" (egress from container `a`). -/
def evDestroy1 : ConntrackEvent :=
  { id := "1"
    type := ConntrackEventType.destroy
    protocol := "tcp"
    srcIP := "10.0.0.5"
    srcPort := 40000
    dstIP := "93.184.216.34"
    dstPort := 443
    state := "TIME_WAIT"
    bytesOrig := 1500
    bytesReply := 4000
    packetsOrig := 12
    packetsReply := 14
    timeout := 120
    timestamp := 300 }

/-- The completed connection the Collector persists for `evDestroy1`. -/
def connDemo : Connection :=
  convertToProto evDestroy1 "a" "10.0.0.5" TrafficDirection.egress

/-- C1 (code bug): saving the same completed connection twice inserts two
rows with `conntrack_id = "1"`.  The `ON CONFLICT DO NOTHING` of
`SaveConnection` can only fire on a unique constraint, and `initSchema`
gives `traffic_connections` no unique constraint other than the `BIGSERIAL`
primary key (`idx_traffic_conntrack_id` is a plain index), so the second
insert is not ignored. -/
theorem save_connection_duplicates_flow_id :
    List.countP (fun r => r.conntrackId == some "1")
        (saveConnection (saveConnection emptyTable 0 connDemo) 0 connDemo).rows
      = 2 ∧
    saveConnection (saveConnection emptyTable 0 connDemo) 0 connDemo ≠
      saveConnection emptyTable 0 connDemo := by
  decide

/-- A NEW event at t = 100 for flow id "7" from container `a`. -/
def evA1 : ConntrackEvent :=
  { id := "7"
    type := ConntrackEventType.new
    protocol := "tcp"
    srcIP := "10.0.0.5"
    srcPort := 40001
    dstIP := "93.184.216.34"
    dstPort := 443
    state := "ESTABLISHED"
    bytesOrig := 1200
    bytesReply := 3400
    packetsOrig := 10
    packetsReply := 12
    timeout := 120
    timestamp := 100 }

/-- An UPDATE at t = 200 for the same flow. -/
def evA2 : ConntrackEvent :=
  { evA1 with
      type := ConntrackEventType.update
      bytesOrig := 1500
      timestamp := 200 }

/-- C3 (code bug): after a NEW at observed_at 100 followed by an UPDATE at
observed_at 200 for the same id, the registry entry's first_seen is 200,
not 100: `processConntrackEvent` replaces the entry wholesale with
`convertToProto`'s output, which sets FirstSeen (and LastSeen) to the
current event's timestamp, so first_seen does not survive later UPDATEs. -/
theorem first_seen_overwritten_by_update :
    Option.map (fun c => c.firstSeen)
        (regLookup
          (processConntrackEvent cacheAB
            (processConntrackEvent cacheAB [] evA1) evA2) "7")
      = some (some evA2.timestamp) ∧
    Option.map (fun c => c.lastSeen)
        (regLookup
          (processConntrackEvent cacheAB
            (processConntrackEvent cacheAB [] evA1) evA2) "7")
      = some (some evA2.timestamp) ∧
    evA1.timestamp = 100 ∧ evA2.timestamp = 200 := by
  decide

/-- The tcp counter of one `GetConnectionSummary` loop iteration. -/
theorem summaryStep_tcpConnections (acc : SummaryAcc) (c : Connection) :
    (summaryStep acc c).tcpConnections =
      acc.tcpConnections + (if c.protocol = Protocol.tcp then 1 else 0) := by
  by_cases h1 : c.protocol = Protocol.tcp
  · simp [summaryStep, h1]
  · by_cases h2 : c.protocol = Protocol.udp <;> simp [summaryStep, h1, h2]

/-- The udp counter of one `GetConnectionSummary` loop iteration (a tcp
connection never reaches the udp branch). -/
theorem summaryStep_udpConnections (acc : SummaryAcc) (c : Connection) :
    (summaryStep acc c).udpConnections =
      acc.udpConnections + (if c.protocol = Protocol.udp then 1 else 0) := by
  by_cases h1 : c.protocol = Protocol.tcp
  · have h2 : c.protocol ≠ Protocol.udp := by
      rw [h1]
      intro hc
      cases hc
    simp [summaryStep, h1, h2]
  · by_cases h2 : c.protocol = Protocol.udp <;> simp [summaryStep, h1, h2]

/-- The sent-bytes total of one `GetConnectionSummary` loop iteration. -/
theorem summaryStep_totalBytesSent (acc : SummaryAcc) (c : Connection) :
    (summaryStep acc c).totalBytesSent = acc.totalBytesSent + c.bytesSent := by
  by_cases h1 : c.protocol = Protocol.tcp
  · simp [summaryStep, h1]
  · by_cases h2 : c.protocol = Protocol.udp <;> simp [summaryStep, h1, h2]

/-- The received-bytes total of one `GetConnectionSummary` loop iteration. -/
theorem summaryStep_totalBytesReceived (acc : SummaryAcc) (c : Connection) :
    (summaryStep acc c).totalBytesReceived =
      acc.totalBytesReceived + c.bytesReceived := by
  by_cases h1 : c.protocol = Protocol.tcp
  · simp [summaryStep, h1]
  · by_cases h2 : c.protocol = Protocol.udp <;> simp [summaryStep, h1, h2]

/-- Closed form of the summary loop's tcp counter. -/
theorem foldl_summaryStep_tcp (conns : List Connection) : ∀ acc : SummaryAcc,
    (List.foldl summaryStep acc conns).tcpConnections =
      acc.tcpConnections +
        List.countP (fun c => c.protocol == Protocol.tcp) conns := by
  induction conns with
  | nil => intro acc; simp
  | cons c rest ih =>
    intro acc
    simp only [List.foldl_cons, ih, summaryStep_tcpConnections,
      List.countP_cons]
    by_cases h : c.protocol = Protocol.tcp <;> (simp [h]; try omega)

/-- Closed form of the summary loop's udp counter. -/
theorem foldl_summaryStep_udp (conns : List Connection) : ∀ acc : SummaryAcc,
    (List.foldl summaryStep acc conns).udpConnections =
      acc.udpConnections +
        List.countP (fun c => c.protocol == Protocol.udp) conns := by
  induction conns with
  | nil => intro acc; simp
  | cons c rest ih =>
    intro acc
    simp only [List.foldl_cons, ih, summaryStep_udpConnections,
      List.countP_cons]
    by_cases h : c.protocol = Protocol.udp <;> (simp [h]; try omega)

/-- Closed form of the summary loop's sent-bytes total. -/
theorem foldl_summaryStep_sent (conns : List Connection) : ∀ acc : SummaryAcc,
    (List.foldl summaryStep acc conns).totalBytesSent =
      acc.totalBytesSent + (List.map (fun c => c.bytesSent) conns).sum := by
  induction conns with
  | nil => intro acc; simp
  | cons c rest ih =>
    intro acc
    simp only [List.foldl_cons, ih, summaryStep_totalBytesSent, List.map_cons,
      List.sum_cons]
    omega

/-- Closed form of the summary loop's received-bytes total. -/
theorem foldl_summaryStep_received (conns : List Connection) :
    ∀ acc : SummaryAcc,
    (List.foldl summaryStep acc conns).totalBytesReceived =
      acc.totalBytesReceived +
        (List.map (fun c => c.bytesReceived) conns).sum := by
  induction conns with
  | nil => intro acc; simp
  | cons c rest ih =>
    intro acc
    simp only [List.foldl_cons, ih, summaryStep_totalBytesReceived,
      List.map_cons, List.sum_cons]
    omega

/-- Two pointwise-disjoint predicates count at most the length together. -/
theorem countP_disjoint_le_length {α : Type} (p q : α → Bool) (l : List α)
    (h : ∀ a : α, p a = true → q a = false) :
    l.countP p + l.countP q ≤ l.length := by
  induction l with
  | nil => simp
  | cons a rest ih =>
    simp only [List.countP_cons, List.length_cons]
    by_cases hp : p a = true
    · have hq := h a hp
      simp only [hp, hq, if_true]
      simp only [show (false = true) = False by simp, if_false]
      omega
    · by_cases hq : q a = true <;> simp [hp, hq] <;> omega

/-- C10: the summary's per-protocol counters never exceed the active count,
and a connection whose protocol is neither TCP nor UDP is counted in
`ActiveConnections` and in both byte totals but in neither per-protocol
counter. -/
theorem summary_protocol_counters (name : String) (conns : List Connection) :
    (summarize name conns).tcpConnections +
        (summarize name conns).udpConnections
      ≤ (summarize name conns).activeConnections ∧
    (∀ c : Connection, c.protocol ≠ Protocol.tcp → c.protocol ≠ Protocol.udp →
      (summarize name (c :: conns)).activeConnections
          = (summarize name conns).activeConnections + 1 ∧
      (summarize name (c :: conns)).tcpConnections
          = (summarize name conns).tcpConnections ∧
      (summarize name (c :: conns)).udpConnections
          = (summarize name conns).udpConnections ∧
      (summarize name (c :: conns)).totalBytesSent
          = (summarize name conns).totalBytesSent + c.bytesSent ∧
      (summarize name (c :: conns)).totalBytesReceived
          = (summarize name conns).totalBytesReceived + c.bytesReceived) := by
  constructor
  · have htcp : (summarize name conns).tcpConnections =
        List.countP (fun c => c.protocol == Protocol.tcp) conns := by
      simp [summarize, foldl_summaryStep_tcp]
    have hudp : (summarize name conns).udpConnections =
        List.countP (fun c => c.protocol == Protocol.udp) conns := by
      simp [summarize, foldl_summaryStep_udp]
    have hact : (summarize name conns).activeConnections = conns.length := by
      simp [summarize]
    rw [htcp, hudp, hact]
    refine countP_disjoint_le_length _ _ conns ?_
    intro a ha
    simp only [beq_iff_eq] at ha
    simp [ha]
  · intro c hc1 hc2
    refine ⟨?_, ?_, ?_, ?_, ?_⟩
    · simp [summarize]
    · simp [summarize, foldl_summaryStep_tcp, summaryStep_tcpConnections,
        List.countP_cons, hc1]
    · simp [summarize, foldl_summaryStep_udp, summaryStep_udpConnections,
        List.countP_cons, hc2]
    · simp only [summarize, foldl_summaryStep_sent, List.map_cons,
        List.sum_cons]
      omega
    · simp only [summarize, foldl_summaryStep_received, List.map_cons,
        List.sum_cons]
      omega

/-- An ICMP connection (protocol neither TCP nor UDP). -/
def connIcmp : Connection :=
  { id := "8"
    containerName := "a"
    containerIp := "10.0.0.5"
    protocol := Protocol.icmp
    sourceIp := "10.0.0.5"
    sourcePort := 0
    destIp := "8.8.8.8"
    destPort := 0
    state := ConnectionState.unspecified
    direction := TrafficDirection.egress
    firstSeen := some 10
    lastSeen := some 20
    timeoutSeconds := 30
    bytesSent := 84
    bytesReceived := 84
    packetsSent := 1
    packetsReceived := 1 }

/-- Witness for C10: adding the ICMP connection `connIcmp` to a singleton
tcp list. -/
theorem summary_protocol_counters_witness :
    connIcmp.protocol ≠ Protocol.tcp ∧ connIcmp.protocol ≠ Protocol.udp ∧
    ((summarize "a" [connDemo]).tcpConnections +
        (summarize "a" [connDemo]).udpConnections
      ≤ (summarize "a" [connDemo]).activeConnections) ∧
    ((summarize "a" (connIcmp :: [connDemo])).activeConnections
        = (summarize "a" [connDemo]).activeConnections + 1 ∧
      (summarize "a" (connIcmp :: [connDemo])).tcpConnections
          = (summarize "a" [connDemo]).tcpConnections ∧
      (summarize "a" (connIcmp :: [connDemo])).udpConnections
          = (summarize "a" [connDemo]).udpConnections ∧
      (summarize "a" (connIcmp :: [connDemo])).totalBytesSent
          = (summarize "a" [connDemo]).totalBytesSent + connIcmp.bytesSent ∧
      (summarize "a" (connIcmp :: [connDemo])).totalBytesReceived
          = (summarize "a" [connDemo]).totalBytesReceived +
              connIcmp.bytesReceived) :=
  ⟨by decide, by decide, (summary_protocol_counters "a" [connDemo]).1,
    (summary_protocol_counters "a" [connDemo]).2 connIcmp (by decide)
      (by decide)⟩

/-- Descending order on `started_at` for query results. -/
def histDescOrder (a b : HistoricalConnection) : Prop :=
  b.startedAt ≤ a.startedAt

/-- C6: `QueryConnections` defaults the limit to 100 for absent (zero) or
non-positive limits, caps it at 1,000, returns at most the effective limit
of rows ordered by `started_at` descending, and reports `total_count` as the
size of the matching set computed without limit or offset. -/
theorem query_history_limit_order_count (tbl : TrafficConnectionsTable)
    (params : QueryParams) :
    (params.limit ≤ 0 → clampLimit params.limit = 100) ∧
    (1000 < params.limit → clampLimit params.limit = 1000) ∧
    (queryConnections tbl params).1.length ≤ (clampLimit params.limit).toNat ∧
    List.Sorted histDescOrder (queryConnections tbl params).1 ∧
    (queryConnections tbl params).2
      = (List.filter (rowMatches params) tbl.rows).length := by
  refine ⟨?_, ?_, ?_, ?_, ?_⟩
  · intro h
    simp [clampLimit, h]
  · intro h
    have h0 : ¬ params.limit ≤ 0 := by omega
    simp [clampLimit, h0, h]
  · simp only [queryConnections, List.length_map]
    exact List.length_take_le _ _
  · have hs :=
      List.sorted_insertionSort rowDescOrder
        (List.filter (rowMatches params) tbl.rows)
    have hsub :
        List.Sublist
          (List.take (clampLimit params.limit).toNat
            (List.drop params.offset
              (List.insertionSort rowDescOrder
                (List.filter (rowMatches params) tbl.rows))))
          (List.insertionSort rowDescOrder
            (List.filter (rowMatches params) tbl.rows)) :=
      List.Sublist.trans (List.take_sublist _ _) (List.drop_sublist _ _)
    exact (List.Pairwise.sublist hsub hs).map toHistorical (fun a b hab => hab)
  · rfl

/-- A persisted row for container `a` in the hour bucket starting at 0. -/
def rowW1 : PersistedConnection :=
  { rowId := 1
    containerName := "a"
    protocol := Protocol.tcp
    sourceIp := "10.0.0.5"
    sourcePort := 40000
    destIp := "93.184.216.34"
    destPort := 443
    direction := TrafficDirection.egress
    bytesSent := 1500
    bytesReceived := 4000
    packetsSent := 12
    packetsReceived := 14
    startedAt := 1000
    endedAt := some 1200
    durationSeconds := some 200
    conntrackId := some "1"
    createdAt := 1300 }

/-- A persisted row for container `a` in the hour bucket starting at
25200. -/
def rowW2 : PersistedConnection :=
  { rowId := 2
    containerName := "a"
    protocol := Protocol.udp
    sourceIp := "10.0.0.5"
    sourcePort := 53000
    destIp := "8.8.8.8"
    destPort := 53
    direction := TrafficDirection.egress
    bytesSent := 120
    bytesReceived := 240
    packetsSent := 2
    packetsReceived := 2
    startedAt := 25200
    endedAt := some 25210
    durationSeconds := some 10
    conntrackId := some "2"
    createdAt := 25300 }

/-- A two-row store. -/
def tblW : TrafficConnectionsTable := { nextId := 3, rows := [rowW1, rowW2] }

/-- Query parameters with an absent (zero) limit. -/
def paramsW : QueryParams :=
  { containerName := "a"
    startTime := 0
    endTime := 30000
    destIP := ""
    destPort := 0
    offset := 0
    limit := 0 }

/-- Witness for C6 at the two-row store with a zero limit. -/
theorem query_history_limit_order_count_witness :
    paramsW.limit ≤ 0 ∧ clampLimit paramsW.limit = 100 ∧
    (queryConnections tblW paramsW).1.length ≤ (clampLimit paramsW.limit).toNat ∧
    List.Sorted histDescOrder (queryConnections tblW paramsW).1 ∧
    (queryConnections tblW paramsW).2
      = (List.filter (rowMatches paramsW) tblW.rows).length :=
  ⟨by decide,
    (query_history_limit_order_count tblW paramsW).1 (by decide),
    (query_history_limit_order_count tblW paramsW).2.2.1,
    (query_history_limit_order_count tblW paramsW).2.2.2.1,
    (query_history_limit_order_count tblW paramsW).2.2.2.2⟩

/-- An aggregate request for a 1-minute interval. -/
def params1m : AggregateParams :=
  { containerName := "a"
    startTime := 0
    endTime := 30000
    interval := "1m"
    groupByDestIP := false
    groupByDestPort := false }

/-- C7 counterexample: a request for 1-minute buckets does not return an
error — `parseInterval` accepts "1m" and `GetAggregates` answers with the
hour-wide buckets produced by its `date_trunc('hour', ...)` query (60 ≤ 3600,
so no re-aggregation happens either). -/
theorem get_aggregates_subhour_interval_no_error :
    getAggregates tblW params1m []
      = Except.ok
          [{ timestamp := 25200
             destIp := ""
             destPort := 0
             bytesSent := 120
             bytesReceived := 240
             connectionCount := 1 },
           { timestamp := 0
             destIp := ""
             destPort := 0
             bytesSent := 1500
             bytesReceived := 4000
             connectionCount := 1 }] := by
  rfl

/-- Membership in the deduplicated key list implies membership in the
original list. -/
theorem mem_of_mem_dedupKeys {α : Type} [DecidableEq α] (l : List α) (k : α)
    (h : k ∈ dedupKeys l) : k ∈ l := by
  have hgen : ∀ (l2 : List α) (acc : List α),
      k ∈ List.foldl (fun acc k2 => if k2 ∈ acc then acc else acc ++ [k2]) acc l2 →
        k ∈ acc ∨ k ∈ l2 := by
    intro l2
    induction l2 with
    | nil =>
      intro acc h2
      exact Or.inl h2
    | cons a rest ih =>
      intro acc h2
      simp only [List.foldl_cons] at h2
      rcases ih _ h2 with hacc | hrest
      · by_cases ha : a ∈ acc
        · rw [if_pos ha] at hacc
          exact Or.inl hacc
        · rw [if_neg ha] at hacc
          rcases List.mem_append.mp hacc with h3 | h3
          · exact Or.inl h3
          · exact Or.inr (List.mem_cons.mpr (Or.inl (List.mem_singleton.mp h3)))
      · exact Or.inr (List.mem_cons_of_mem a hrest)
  rcases hgen l [] h with h1 | h2
  · cases h1
  · exact h2

/-- The hour truncation of SQL `date_trunc('hour', ...)` is idempotent. -/
theorem hourTrunc_idem (t : Int) : hourTrunc (hourTrunc t) = hourTrunc t := by
  unfold hourTrunc
  rw [Int.mul_fdiv_cancel_left _ (by norm_num)]

/-- Every bucket produced by the hourly aggregation query starts on an hour
boundary. -/
theorem hourlyAggregates_hour_aligned (tbl : TrafficConnectionsTable)
    (params : AggregateParams) :
    ∀ a ∈ hourlyAggregates tbl params, a.timestamp = hourTrunc a.timestamp := by
  intro a ha
  simp only [hourlyAggregates] at ha
  rw [List.Perm.mem_iff (List.perm_insertionSort _ _)] at ha
  obtain ⟨k, hk, rfl⟩ := List.mem_map.mp ha
  have hk2 := mem_of_mem_dedupKeys _ _ hk
  obtain ⟨r, _, rfl⟩ := List.mem_map.mp hk2
  simp only [aggKey]
  exact (hourTrunc_idem r.startedAt).symm

/-- C7 amended: a sub-hour interval (1m, 5m, 15m, 30m) is accepted without
error; the call silently answers with the hourly buckets — each returned
bucket starts on an hour boundary, wider than the requested interval. -/
theorem get_aggregates_subhour_silently_hourly (tbl : TrafficConnectionsTable)
    (params : AggregateParams) (order : List Int)
    (h : params.interval = "1m" ∨ params.interval = "5m" ∨
      params.interval = "15m" ∨ params.interval = "30m") :
    getAggregates tbl params order
        = Except.ok (hourlyAggregates tbl params) ∧
    ∀ a ∈ hourlyAggregates tbl params, a.timestamp = hourTrunc a.timestamp := by
  refine ⟨?_, hourlyAggregates_hour_aligned tbl params⟩
  rcases h with h | h | h | h <;> simp [getAggregates, parseInterval, h]

/-- Witness for C7 (amended) at the two-row store and the 1m request. -/
theorem get_aggregates_subhour_silently_hourly_witness :
    (params1m.interval = "1m" ∨ params1m.interval = "5m" ∨
      params1m.interval = "15m" ∨ params1m.interval = "30m") ∧
    (getAggregates tblW params1m []
        = Except.ok (hourlyAggregates tblW params1m) ∧
      ∀ a ∈ hourlyAggregates tblW params1m,
        a.timestamp = hourTrunc a.timestamp) :=
  ⟨Or.inl rfl,
    get_aggregates_subhour_silently_hourly tblW params1m [] (Or.inl rfl)⟩

/-- Association-list lookup is `none` exactly on keys outside the key
column. -/
theorem lookup_none_iff_not_mem_keys {κ β : Type} [BEq κ] [LawfulBEq κ]
    (l : List (κ × β)) (k : κ) :
    List.lookup k l = none ↔ k ∉ List.map Prod.fst l := by
  induction l with
  | nil => simp
  | cons p rest ih =>
    cases p with
    | mk k2 v =>
      simp only [List.map_cons, List.mem_cons]
      cases hk : k == k2
      · have hne : k ≠ k2 := by
          intro hc
          rw [hc] at hk
          simp at hk
        simp [List.lookup, hk, ih, hne]
      · have heq : k = k2 := eq_of_beq hk
        simp [List.lookup, hk, heq]

/-- Keys of the `reAggregate` grouping map after one step: unchanged when the
bucket exists, extended by the new bucket time otherwise. -/
theorem keys_reAggStep (interval : Int) (buckets : List (Int × TrafficAggregate))
    (agg : TrafficAggregate) :
    List.map Prod.fst (reAggStep interval buckets agg)
      = (match List.lookup (truncTo interval agg.timestamp) buckets with
        | some _ => List.map Prod.fst buckets
        | none => List.map Prod.fst buckets ++ [truncTo interval agg.timestamp]) := by
  unfold reAggStep
  cases hlk : List.lookup (truncTo interval agg.timestamp) buckets with
  | some v =>
    simp only [hlk, List.map_map]
    refine List.map_congr_left ?_
    intro kv _
    by_cases hk : kv.1 = truncTo interval agg.timestamp <;> simp [hk]
  | none => simp [hlk]

/-- The grouping map of `reAggregate` has pairwise-distinct keys. -/
theorem reAggGroups_keys_nodup (aggregates : List TrafficAggregate)
    (interval : Int) :
    (List.map Prod.fst (reAggGroups aggregates interval)).Nodup := by
  suffices h : ∀ (l : List TrafficAggregate)
      (buckets : List (Int × TrafficAggregate)),
      (List.map Prod.fst buckets).Nodup →
      (List.map Prod.fst (List.foldl (reAggStep interval) buckets l)).Nodup by
    exact h aggregates [] (by simp)
  intro l
  induction l with
  | nil =>
    intro buckets h
    exact h
  | cons a rest ih =>
    intro buckets h
    simp only [List.foldl_cons]
    refine ih _ ?_
    rw [keys_reAggStep]
    cases hlk : List.lookup (truncTo interval a.timestamp) buckets with
    | some v => exact h
    | none =>
      refine List.nodup_append.mpr ⟨h, List.nodup_singleton _, ?_⟩
      intro x hx hx2
      rw [List.mem_singleton.mp hx2] at hx
      exact absurd hlk
        (by
          rw [lookup_none_iff_not_mem_keys]
          intro hc
          exact hc hx)

/-- Looking the keys of a key-distinct association list back up yields its
value column. -/
theorem filterMap_lookup_keys {κ β : Type} [BEq κ] [LawfulBEq κ]
    (l : List (κ × β)) (h : (List.map Prod.fst l).Nodup) :
    List.filterMap (fun k => List.lookup k l) (List.map Prod.fst l)
      = List.map Prod.snd l := by
  induction l with
  | nil => simp
  | cons p rest ih =>
    cases p with
    | mk k v =>
      simp only [List.map_cons, List.nodup_cons] at h ⊢
      have hstep : List.filterMap (fun k2 => List.lookup k2 ((k, v) :: rest))
          (List.map Prod.fst rest)
            = List.filterMap (fun k2 => List.lookup k2 rest)
                (List.map Prod.fst rest) := by
        refine List.filterMap_congr ?_
        intro k2 hk2
        have hne : ¬ (k2 == k) = true := by
          intro hc
          exact h.1 (eq_of_beq hc ▸ hk2)
        simp only [List.lookup]
        cases hk3 : k2 == k
        · rfl
        · exact absurd hk3 hne
      have hhead : List.lookup k ((k, v) :: rest) = some v := by
        simp [List.lookup]
      calc
        List.filterMap (fun k2 => List.lookup k2 ((k, v) :: rest))
            (k :: List.map Prod.fst rest)
            = v :: List.filterMap (fun k2 => List.lookup k2 ((k, v) :: rest))
                (List.map Prod.fst rest) := List.filterMap_cons_some hhead
        _ = v :: List.filterMap (fun k2 => List.lookup k2 rest)
                (List.map Prod.fst rest) := by rw [hstep]
        _ = v :: List.map Prod.snd rest := by rw [ih h.2]

/-- Collecting a key-distinct association list's values in any permutation of
its keys yields a permutation of its value column. -/
theorem perm_filterMap_lookup {κ β : Type} [BEq κ] [LawfulBEq κ]
    (l : List (κ × β)) (order : List κ)
    (hnd : (List.map Prod.fst l).Nodup)
    (hperm : List.Perm order (List.map Prod.fst l)) :
    List.Perm (List.filterMap (fun k => List.lookup k l) order)
      (List.map Prod.snd l) := by
  have h1 := List.Perm.filterMap (fun k => List.lookup k l) hperm
  rw [filterMap_lookup_keys l hnd] at h1
  exact h1

/-- C8 amended: `GetAggregates` returns buckets ordered descending by bucket
start only when the requested interval is at most one hour (no
recomposition); when the interval is larger, `reAggregate` collects the
recomposed buckets by ranging over a Go map, so the result is some
permutation of the recomposed buckets, in no guaranteed order. -/
theorem get_aggregates_bucket_order (tbl : TrafficConnectionsTable)
    (params : AggregateParams) (order : List Int) (d : Int)
    (hd : parseInterval params.interval = Except.ok d)
    (hord : ValidReAggOrder (hourlyAggregates tbl params) d order) :
    (d ≤ 3600 →
      getAggregates tbl params order
          = Except.ok (hourlyAggregates tbl params) ∧
      List.Sorted aggDescOrder (hourlyAggregates tbl params)) ∧
    (3600 < d →
      getAggregates tbl params order
          = Except.ok (reAggregate (hourlyAggregates tbl params) d order) ∧
      List.Perm (reAggregate (hourlyAggregates tbl params) d order)
        (List.map Prod.snd (reAggGroups (hourlyAggregates tbl params) d))) := by
  constructor
  · intro hle
    constructor
    · simp only [getAggregates, hd]
      rw [if_neg (by omega)]
    · simp only [hourlyAggregates]
      exact List.sorted_insertionSort _ _
  · intro hgt
    constructor
    · simp only [getAggregates, hd]
      rw [if_pos (by omega)]
    · unfold reAggregate
      by_cases hz : (hourlyAggregates tbl params).length = 0
      · rw [if_pos hz]
        have hnil : hourlyAggregates tbl params = [] :=
          List.length_eq_zero.mp hz
        rw [hnil]
        simp [reAggGroups]
      · rw [if_neg hz]
        exact perm_filterMap_lookup _ order
          (reAggGroups_keys_nodup (hourlyAggregates tbl params) d) hord

/-- An aggregate request for 6-hour buckets. -/
def params6h : AggregateParams :=
  { containerName := "a"
    startTime := 0
    endTime := 30000
    interval := "6h"
    groupByDestIP := false
    groupByDestPort := false }

/-- A possible Go map iteration order for the recomposed buckets of `tblW`
under 6-hour re-aggregation: ascending bucket times. -/
def order0 : List Int := [0, 21600]

/-- C8 counterexample: with the 6-hour request on `tblW` and the (valid) map
iteration order `order0`, `GetAggregates` returns the recomposed buckets in
ascending bucket-start order, so the result is not ordered descending — the
collection loop of `reAggregate` ranges over a Go map and never sorts. -/
theorem get_aggregates_reaggregated_unordered :
    ValidReAggOrder (hourlyAggregates tblW params6h) 21600 order0 ∧
    parseInterval params6h.interval = Except.ok 21600 ∧
    getAggregates tblW params6h order0
      = Except.ok
          [{ timestamp := 0
             destIp := ""
             destPort := 0
             bytesSent := 1500
             bytesReceived := 4000
             connectionCount := 1 },
           { timestamp := 21600
             destIp := ""
             destPort := 0
             bytesSent := 120
             bytesReceived := 240
             connectionCount := 1 }] ∧
    ¬ List.Sorted aggDescOrder
        [{ timestamp := 0
           destIp := ""
           destPort := 0
           bytesSent := 1500
           bytesReceived := 4000
           connectionCount := 1 },
         { timestamp := 21600
           destIp := ""
           destPort := 0
           bytesSent := 120
           bytesReceived := 240
           connectionCount := 1 }] := by
  refine ⟨by decide, rfl, by rfl, ?_⟩
  intro hs
  have h2 := (List.pairwise_cons.mp hs).1 _ (List.mem_singleton.mpr rfl)
  simp only [aggDescOrder] at h2
  omega

/-- Witness for C8 (amended) at the 6-hour request on `tblW` with the valid
iteration order `order0`. -/
theorem get_aggregates_bucket_order_witness :
    parseInterval params6h.interval = Except.ok 21600 ∧
    ValidReAggOrder (hourlyAggregates tblW params6h) 21600 order0 ∧
    ((21600 : Int) ≤ 3600 →
      getAggregates tblW params6h order0
          = Except.ok (hourlyAggregates tblW params6h) ∧
      List.Sorted aggDescOrder (hourlyAggregates tblW params6h)) ∧
    ((3600 : Int) < 21600 →
      getAggregates tblW params6h order0
          = Except.ok (reAggregate (hourlyAggregates tblW params6h) 21600 order0) ∧
      List.Perm (reAggregate (hourlyAggregates tblW params6h) 21600 order0)
        (List.map Prod.snd
          (reAggGroups (hourlyAggregates tblW params6h) 21600))) :=
  ⟨rfl, by decide,
    (get_aggregates_bucket_order tblW params6h order0 21600 rfl (by decide)).1,
    (get_aggregates_bucket_order tblW params6h order0 21600 rfl (by decide)).2⟩

/-- Deleting a key from the registry makes its lookup `none`. -/
theorem lookup_regRemove_self (reg : Registry) (id : String) :
    List.lookup id (regRemove reg id) = none := by
  rw [lookup_none_iff_not_mem_keys]
  intro hmem
  obtain ⟨p, hp, hfst⟩ := List.mem_map.mp hmem
  have h2 := (List.mem_filter.mp hp).2
  simp only [decide_eq_true_eq] at h2
  exact h2 hfst

/-- Deleting one key leaves the other lookups unchanged. -/
theorem lookup_regRemove_ne (reg : Registry) (id k : String) (h : k ≠ id) :
    List.lookup k (regRemove reg id) = List.lookup k reg := by
  induction reg with
  | nil => rfl
  | cons p rest ih =>
    cases p with
    | mk pk pv =>
      by_cases hp : pk = id
      · have h1 : regRemove ((pk, pv) :: rest) id = regRemove rest id := by
          simp [regRemove, hp]
        have hkp : (k == pk) = false := by
          rw [beq_eq_false_iff_ne, hp]
          exact h
        rw [h1, ih]
        simp [List.lookup, hkp]
      · have h1 : regRemove ((pk, pv) :: rest) id
            = (pk, pv) :: regRemove rest id := by
          simp [regRemove, hp]
        rw [h1]
        by_cases hk2 : k = pk
        · subst hk2
          simp [List.lookup]
        · have hkp : (k == pk) = false := by
            rw [beq_eq_false_iff_ne]
            exact hk2
          simp only [List.lookup, hkp]
          exact ih

/-- Map assignment makes the assigned key's lookup hit the new value. -/
theorem lookup_regInsert_self (reg : Registry) (id : String)
    (conn : Connection) :
    List.lookup id (regInsert reg id conn) = some conn := by
  simp [regInsert, List.lookup]

/-- Map assignment leaves the other lookups unchanged. -/
theorem lookup_regInsert_ne (reg : Registry) (id k : String)
    (conn : Connection) (h : k ≠ id) :
    List.lookup k (regInsert reg id conn) = List.lookup k reg := by
  have hk : (k == id) = false := by
    simp only [beq_eq_false_iff_ne]
    exact h
  simp only [regInsert, List.lookup, hk]
  exact lookup_regRemove_ne reg id k h

/-- One snapshot-rebuild step keeps `id` present iff the event carries `id`
and attributes, or `id` was already present. -/
theorem lookup_snapStep_isSome (cache : Directory) (reg : Registry)
    (e : ConntrackEvent) (id : String) :
    (List.lookup id (snapStep cache reg e)).isSome =
      ((e.id == id && attributed cache e)
        || (List.lookup id reg).isSome) := by
  unfold snapStep
  cases hat : attributeEvent cache e with
  | none =>
    have hatt : attributed cache e = false := by simp [attributed, hat]
    simp [hatt]
  | some t =>
    obtain ⟨name, ip, dir⟩ := t
    have hatt : attributed cache e = true := by simp [attributed, hat]
    by_cases hid : id = e.id
    · subst hid
      rw [lookup_regInsert_self]
      simp [hatt]
    · rw [lookup_regInsert_ne _ _ _ _ hid]
      have hne : (e.id == id) = false := by
        simp only [beq_eq_false_iff_ne]
        exact fun hc => hid hc.symm
      simp [hne]

/-- Registry membership after the snapshot-rebuild fold. -/
theorem lookup_snapFold_isSome (cache : Directory) (id : String) :
    ∀ (es : List ConntrackEvent) (reg0 : Registry),
    (List.lookup id (List.foldl (snapStep cache) reg0 es)).isSome =
      (List.any es (fun e => e.id == id && attributed cache e)
        || (List.lookup id reg0).isSome) := by
  intro es
  induction es with
  | nil =>
    intro reg0
    simp
  | cons e rest ih =>
    intro reg0
    simp only [List.foldl_cons, List.any_cons, ih, lookup_snapStep_isSome]
    cases hP : (e.id == id && attributed cache e) <;>
      cases hA : List.any rest (fun e => e.id == id && attributed cache e) <;>
        simp [hP, hA]

/-- One Collector step keeps `id` present iff the observation decides `id`
and keeps it, or it does not decide `id` and `id` was already present. -/
theorem lookup_obsStep_isSome (cache : Directory) (reg : Registry)
    (o : Observation) (id : String) :
    (List.lookup id (obsStep cache reg o)).isSome =
      (if decidesId cache id o = true then obsKeeps cache id o
        else (List.lookup id reg).isSome) := by
  cases o with
  | snap es =>
    simp only [obsStep, takeSnapshot]
    simp [decidesId, obsKeeps]
    rw [lookup_snapFold_isSome cache id es []]
    simp [List.lookup]
  | ev e =>
    simp only [obsStep, decidesId, obsKeeps, processConntrackEvent]
    cases hat : attributeEvent cache e with
    | none =>
      have hatt : attributed cache e = false := by simp [attributed, hat]
      simp [hatt]
    | some t =>
      obtain ⟨name, ip, dir⟩ := t
      have hatt : attributed cache e = true := by simp [attributed, hat]
      simp only [hat]
      by_cases hty : e.type = ConntrackEventType.destroy
      · rw [if_pos hty]
        by_cases hid : id = e.id
        · subst hid
          rw [lookup_regRemove_self]
          simp [hatt, hty]
        · rw [lookup_regRemove_ne _ _ _ hid]
          have hne : (e.id == id) = false := by
            rw [beq_eq_false_iff_ne]
            exact fun hc => hid hc.symm
          simp [hne]
      · rw [if_neg hty]
        by_cases hid : id = e.id
        · subst hid
          rw [lookup_regInsert_self]
          simp [hatt, hty]
        · rw [lookup_regInsert_ne _ _ _ _ hid]
          have hne : (e.id == id) = false := by
            rw [beq_eq_false_iff_ne]
            exact fun hc => hid hc.symm
          simp [hne]

/-- Appending one observation updates the backward walk's fallback. -/
theorem aliveAfterRev_append (cache : Directory) (id : String)
    (l : List Observation) (o : Observation) (d : Bool) :
    aliveAfterRev cache id (l ++ [o]) d =
      aliveAfterRev cache id l
        (if decidesId cache id o = true then obsKeeps cache id o else d) := by
  induction l with
  | nil => simp [aliveAfterRev]
  | cons o2 rest ih => simp [aliveAfterRev, ih]

/-- Registry membership after folding the Collector step over observations,
for an arbitrary starting registry. -/
theorem foldl_obsStep_lookup (cache : Directory) (id : String) :
    ∀ (obs : List Observation) (reg : Registry),
    (List.lookup id (List.foldl (obsStep cache) reg obs)).isSome =
      aliveAfterRev cache id (List.reverse obs)
        ((List.lookup id reg).isSome) := by
  intro obs
  induction obs with
  | nil =>
    intro reg
    simp [aliveAfterRev]
  | cons o rest ih =>
    intro reg
    simp only [List.foldl_cons, List.reverse_cons]
    rw [ih, aliveAfterRev_append, lookup_obsStep_isSome]

/-- C5 amended: starting from the empty registry and with a fixed directory,
the Flow Registry contains an entry for `id` iff the most recent observation
deciding `id` keeps it — an observation decides `id` when it is an event for
`id` whose attribution succeeds (events that fail attribution leave the
registry untouched) or any snapshot (which rebuilds the whole registry); an
event keeps `id` iff it is not DESTROY, a snapshot keeps `id` iff it
contains an attributed entry for `id`. -/
theorem registry_membership_characterisation (cache : Directory)
    (obs : List Observation) (id : String) :
    (regLookup (processObservations cache obs) id).isSome
      = aliveAfter cache obs id := by
  unfold processObservations aliveAfter regLookup
  have h := foldl_obsStep_lookup cache id obs []
  simpa using h

/-- C5 counterexample: a single NEW event between two non-container IPs (the
directory is empty).  The last observed event for its id is not DESTROY, yet
the Flow Registry has no entry for it, because events that fail attribution
are skipped and never create an entry. -/
theorem registry_iff_last_event_counterexample :
    ¬ (((regLookup (processObservations ([] : Directory)
            [Observation.ev evA1]) "7").isSome = true) ↔
        (lastEventTypeFor [Observation.ev evA1] "7" ≠ none ∧
          lastEventTypeFor [Observation.ev evA1] "7"
            ≠ some ConntrackEventType.destroy)) := by
  decide

end Containarium
